import Mathlib

/-!
Shallow embedding of the smart reminder engine of `src/utils/smart_reminders.py`
(`SmartReminderSystem`).  Database reads and writes, the Telegram transport and
the wall clock are modelled as explicit parameters; timestamps are integers
(seconds), percentages are rationals (the Python source uses float arithmetic;
the claims under study are order/selection properties that do not depend on
rounding).
-/

set_option autoImplicit false

namespace SmartReminders

/-- One entry of `REMINDER_THRESHOLDS` (smart_reminders.py lines 22-26):
a percentage together with its human-readable label. -/
structure Threshold where
  percent : Nat
  label : String
deriving DecidableEq, Repr

/-- `self.REMINDER_THRESHOLDS` (lines 22-26): the fixed ascending list
of the three reminder thresholds 50%, 70%, 90% with their Arabic labels. -/
def REMINDER_THRESHOLDS : List Threshold :=
  [⟨50, "الأول (50%)"⟩, ⟨70, "الثاني (70%)"⟩, ⟨90, "الأخير (90%)"⟩]

/-- A row of the `exam_reminders` table (lines 52-59):
`(exam_id, reminder_percent)` is the PRIMARY KEY, `sent_at` the timestamp
(modelled as an integer instead of an ISO string). -/
structure LedgerEntry where
  exam_id : Nat
  reminder_percent : Nat
  sent_at : Nat
deriving DecidableEq, Repr

/-- The successful result of the `SELECT COUNT(*) ... > 0` query of
`_is_reminder_sent` (lines 222-227): whether the `exam_reminders` table,
modelled as a list of rows, holds a row for `(exam_id, reminder_percent)`. -/
def queryLedger (ledger : List LedgerEntry) (exam_id reminder_percent : Nat) : Bool :=
  ledger.any fun x => x.exam_id = exam_id ∧ x.reminder_percent = reminder_percent

/-- Number of rows of the table with the given composite key
(used to state the at-most-one-entry invariant). -/
def countEntries (ledger : List LedgerEntry) (exam_id reminder_percent : Nat) : Nat :=
  (ledger.filter fun x =>
    x.exam_id = exam_id ∧ x.reminder_percent = reminder_percent).length

/-- `_is_reminder_sent` (lines 217-230).  `readOk exam_id percent = false`
models the `except` branch: if the database query raises, the function logs
and returns `False`; otherwise it returns whether a row exists. -/
def is_reminder_sent (readOk : Nat → Nat → Bool) (ledger : List LedgerEntry)
    (exam_id reminder_percent : Nat) : Bool :=
  if readOk exam_id reminder_percent then queryLedger ledger exam_id reminder_percent
  else false

/-- `_mark_reminder_sent` (lines 232-243), successful-write case.  The SQL is
`INSERT OR REPLACE INTO exam_reminders ... PRIMARY KEY (exam_id, reminder_percent)`:
SQLite deletes any existing row with the same composite key and inserts the new
row, so the model removes matching rows and appends the fresh entry carrying
`now` as `sent_at` (`datetime.now().isoformat()` in the source). -/
def mark_reminder_sent (ledger : List LedgerEntry) (exam_id reminder_percent now : Nat) :
    List LedgerEntry :=
  (ledger.filter fun x => ¬(x.exam_id = exam_id ∧ x.reminder_percent = reminder_percent))
    ++ [⟨exam_id, reminder_percent, now⟩]

/-- The exam row handed to `_process_exam_reminders` (joined with class and
group columns, lines 92-100).  `creation_parse` is the outcome of the
`datetime` parsing block of `_get_reminder_to_send` (lines 174-183): `some t`
with `t` the parsed creation time in seconds, or `none` when the string is
malformed and the parse raises. -/
structure Exam where
  exam_id : Nat
  creation_parse : Option Int
  duration_days : Int
  title : String
  class_name : String
  group_id : Nat
deriving Repr

/-- A roster row returned by `db.get_class_students(class_id, status=approved)`
(line 115): user id and display name. -/
structure Student where
  user_id : Nat
  full_name : String
deriving DecidableEq, Repr

/-- `_get_reminder_to_send` (lines 166-215).  Parsing failure returns `none`
(lines 181-183); `total_duration = timedelta(days=duration_days)` so
`total_duration.total_seconds() = duration_days * 86400`, and a non-positive
duration returns `none` (lines 192-193); otherwise
`percent_elapsed = time_elapsed / total_duration * 100` and the loop over
`REMINDER_THRESHOLDS` (lines 200-209) returns the first threshold with
`percent_elapsed >= threshold_percent` that `_is_reminder_sent` reports unsent.
`percent_elapsed` (line 195) is split out as its own definition:
`time_elapsed.total_seconds() / total_duration.total_seconds() * 100` with
`time_elapsed = now - creation_date` and
`total_duration.total_seconds() = duration_days * 86400`. -/
def percent_elapsed (creation_date now duration_days : Int) : ℚ :=
  ((now - creation_date : Int) : ℚ) / ((duration_days * 86400 : Int) : ℚ) * 100

/-- The threshold-selection body of `_get_reminder_to_send`; see `percent_elapsed`. -/
def get_reminder_to_send (readOk : Nat → Nat → Bool) (ledger : List LedgerEntry)
    (exam : Exam) (now : Int) : Option Threshold :=
  match exam.creation_parse with
  | none => none
  | some creation_date =>
    if exam.duration_days * 86400 ≤ 0 then none
    else
      REMINDER_THRESHOLDS.find? fun t =>
        decide ((t.percent : ℚ) ≤ percent_elapsed creation_date now exam.duration_days) &&
          ! is_reminder_sent readOk ledger exam.exam_id t.percent

/-- The external collaborators of one pipeline pass, fixed for its duration:
the approved roster of the exam's class (`db.get_class_students`, line 115),
the distinct submitted user ids (`_get_submitted_students`, lines 150-164),
the per-user results of `_is_user_manager` / `_is_user_owner` at dispatch time
(lines 292-293; both return `False` on a database error), whether
`bot.send_message` succeeds for a user (line 314; an exception is caught per
student at lines 318-319), whether ledger reads succeed (`_is_reminder_sent`'s
`except` branch), whether the ledger write of `_mark_reminder_sent` succeeds,
and the wall-clock value used for `sent_at`. -/
structure ReminderEnv where
  students : List Student
  submitted_ids : List Nat
  is_manager : Nat → Bool
  is_owner : Nat → Bool
  send_ok : Nat → Bool
  readOk : Nat → Nat → Bool
  write_ok : Bool
  now_ts : Nat

/-- The per-student loop of `_send_intelligent_reminders` (lines 287-319):
walk `pending_students` in order; a student whose manager or owner check is
true is skipped (lines 295-297); otherwise the send is attempted, and on
success `success_count` grows.  Returns `(attempted, succeeded)`: the user ids
for which a send was attempted and the sub-list for which it succeeded. -/
def sendToPending (is_manager is_owner send_ok : Nat → Bool) :
    List Student → List Nat × List Nat
  | [] => ([], [])
  | s :: rest =>
    let r := sendToPending is_manager is_owner send_ok rest
    if is_manager s.user_id || is_owner s.user_id then r
    else if send_ok s.user_id then (s.user_id :: r.1, s.user_id :: r.2)
    else (s.user_id :: r.1, r.2)

/-- Outcome of `_send_intelligent_reminders`: the table after the pass, the
user ids successfully messaged, those attempted, and the two numbers of the
audit-log line `sent_to:{success_count}/{len(pending_students)}` (line 328)
together with `submission_rate` (line 279). -/
structure DispatchResult where
  ledger : List LedgerEntry
  sent : List Nat
  attempted : List Nat
  success_count : Nat
  reported_total : Nat
  submission_rate : ℚ
deriving Repr

/-- `_send_intelligent_reminders` (lines 245-334).  The group broadcast is
disabled in the source (lines 281-283).  Each pending student is skipped when
staff, otherwise sent to, failures caught per student; afterwards
`_mark_reminder_sent` runs unconditionally (line 322) — modelled as a no-op on
the table when the write raises (`write_ok = false`) — and the audit log
reports `success_count` over `len(pending_students)`.
`submission_rate = submitted_count / total_students * 100` (line 279) has no
zero guard.  The expiry-hours query (lines 258-277) only feeds the message
text and is assumed not to raise; the text itself is not modelled. -/
def send_intelligent_reminders (env : ReminderEnv) (ledger : List LedgerEntry)
    (exam : Exam) (pending_students : List Student)
    (submitted_count total_students : Nat) (reminder_info : Threshold) :
    DispatchResult :=
  let r := sendToPending env.is_manager env.is_owner env.send_ok pending_students
  { ledger :=
      if env.write_ok then
        mark_reminder_sent ledger exam.exam_id reminder_info.percent env.now_ts
      else ledger
    sent := r.2
    attempted := r.1
    success_count := r.2.length
    reported_total := pending_students.length
    submission_rate := (submitted_count : ℚ) / (total_students : ℚ) * 100 }

/-- `pending_students` (line 124): approved students with no submission row. -/
def pending_students (env : ReminderEnv) : List Student :=
  env.students.filter fun s => ¬ env.submitted_ids.contains s.user_id

/-- Outcome of `_process_exam_reminders`: the table after the pass, the user
ids successfully messaged, and — when the dispatcher was invoked — the
`(submitted_count, total_students, reminder)` arguments it received. -/
structure ProcessResult where
  ledger : List LedgerEntry
  sent : List Nat
  dispatched : Option (Nat × Nat × Threshold)
deriving Repr

/-- `_process_exam_reminders` (lines 107-148): return early when the approved
roster is empty (lines 116-117) or every student submitted (lines 126-128);
otherwise evaluate `_get_reminder_to_send` and, when it yields a threshold,
run `_send_intelligent_reminders` with `submitted_count = len(submitted_students)`
and `total_students = len(students)` (lines 131-145). -/
def process_exam_reminders (env : ReminderEnv) (ledger : List LedgerEntry)
    (exam : Exam) (now : Int) : ProcessResult :=
  if env.students.isEmpty then ⟨ledger, [], none⟩
  else
    let pending := pending_students env
    if pending.isEmpty then ⟨ledger, [], none⟩
    else
      let total_students := env.students.length
      let submitted_count := env.submitted_ids.length
      match get_reminder_to_send env.readOk ledger exam now with
      | none => ⟨ledger, [], none⟩
      | some reminder_info =>
        let r := send_intelligent_reminders env ledger exam pending
          submitted_count total_students reminder_info
        ⟨r.ledger, r.sent, some (submitted_count, total_students, reminder_info)⟩

/-! ### Concrete sample data used to instantiate the theorems -/

/-- A well-formed exam: created at time 0, duration 10 days. -/
def sampleExam : Exam := ⟨3, some 0, 10, "hw", "c1", 5⟩

/-- An exam with duration 0 (non-expiring reference material). -/
def sampleExamZero : Exam := ⟨1, some 0, 0, "hw", "c1", 5⟩

/-- An exam whose creation timestamp failed to parse. -/
def sampleExamBad : Exam := ⟨2, none, 10, "hw", "c1", 5⟩

/-- Two approved students, no submissions, no staff, transport succeeds,
database reads and writes succeed. -/
def sampleEnv : ReminderEnv :=
  ⟨[⟨7, "a"⟩, ⟨8, "b"⟩], [], fun _ => false, fun _ => false, fun _ => true,
   fun _ _ => true, true, 999⟩

/-- One approved student who has already submitted. -/
def envAllSubmitted : ReminderEnv :=
  ⟨[⟨7, "a"⟩], [7], fun _ => false, fun _ => false, fun _ => true,
   fun _ _ => true, true, 999⟩

/-- Two pending students of which the first (user 7) manages a class. -/
def envStaff : ReminderEnv :=
  ⟨[⟨7, "m"⟩, ⟨8, "s"⟩], [], fun u => u == 7, fun _ => false, fun _ => true,
   fun _ _ => true, true, 999⟩

/-- One pending student, every ledger read raising (and so reported unsent). -/
def envReadFail : ReminderEnv :=
  ⟨[⟨8, "s"⟩], [], fun _ => false, fun _ => false, fun _ => true,
   fun _ _ => false, true, 999⟩

/-! ### Helper lemmas -/

lemma get_reminder_eq_find (readOk : Nat → Nat → Bool) (ledger : List LedgerEntry)
    (exam : Exam) (now creation : Int)
    (hparse : exam.creation_parse = some creation)
    (hdur : 0 < exam.duration_days) :
    get_reminder_to_send readOk ledger exam now =
      REMINDER_THRESHOLDS.find? (fun t =>
        decide ((t.percent : ℚ) ≤ percent_elapsed creation now exam.duration_days) &&
          ! is_reminder_sent readOk ledger exam.exam_id t.percent) := by
  simp only [get_reminder_to_send, hparse]
  rw [if_neg (not_le.mpr (mul_pos hdur (by norm_num)))]

lemma find?_min_of_pairwise (p : Threshold → Bool) :
    ∀ l : List Threshold, l.Pairwise (fun a b => a.percent ≤ b.percent) →
      ∀ t, l.find? p = some t → ∀ t' ∈ l, p t' = true → t.percent ≤ t'.percent := by
  intro l
  induction l with
  | nil => intro _ t h; simp at h
  | cons a l ih =>
    intro hp t h t' ht' hpt'
    rcases List.pairwise_cons.1 hp with ⟨ha, hl⟩
    by_cases hpa : p a = true
    · rw [List.find?_cons_of_pos _ hpa] at h
      cases h
      rcases List.mem_cons.1 ht' with h' | hmem
      · rw [h']
      · exact ha _ hmem
    · rw [List.find?_cons_of_neg _ hpa] at h
      rcases List.mem_cons.1 ht' with h' | hmem
      · exact absurd (h' ▸ hpt') hpa
      · exact ih hl t h t' hmem hpt'

lemma sendToPending_cons (im io so : Nat → Bool) (s : Student) (l : List Student) :
    sendToPending im io so (s :: l) =
      if im s.user_id || io s.user_id then sendToPending im io so l
      else if so s.user_id then
        (s.user_id :: (sendToPending im io so l).1,
         s.user_id :: (sendToPending im io so l).2)
      else (s.user_id :: (sendToPending im io so l).1, (sendToPending im io so l).2) :=
  rfl

lemma mem_sent_sendToPending (im io so : Nat → Bool) :
    ∀ (l : List Student) (u : Nat), u ∈ (sendToPending im io so l).2 →
      im u = false ∧ io u = false ∧ so u = true ∧ ∃ s ∈ l, s.user_id = u := by
  intro l
  induction l with
  | nil => intro u hu; simp [sendToPending] at hu
  | cons s l ih =>
    intro u hu
    rw [sendToPending_cons] at hu
    by_cases hstaff : (im s.user_id || io s.user_id) = true
    · rw [if_pos hstaff] at hu
      obtain ⟨h1, h2, h3, w, hw, hwu⟩ := ih u hu
      exact ⟨h1, h2, h3, w, List.mem_cons_of_mem _ hw, hwu⟩
    · rw [if_neg hstaff] at hu
      have hff : im s.user_id = false ∧ io s.user_id = false := by
        simpa [not_or] using hstaff
      by_cases hso : so s.user_id = true
      · rw [if_pos hso] at hu
        rcases List.mem_cons.1 hu with h' | hmem
        · subst h'
          exact ⟨hff.1, hff.2, hso, s, List.mem_cons_self _ _, rfl⟩
        · obtain ⟨h1, h2, h3, w, hw, hwu⟩ := ih u hmem
          exact ⟨h1, h2, h3, w, List.mem_cons_of_mem _ hw, hwu⟩
      · rw [if_neg hso] at hu
        obtain ⟨h1, h2, h3, w, hw, hwu⟩ := ih u hu
        exact ⟨h1, h2, h3, w, List.mem_cons_of_mem _ hw, hwu⟩

lemma sendToPending_eq (im io so : Nat → Bool) (l : List Student) :
    (sendToPending im io so l).1 =
      (l.filter fun s => !(im s.user_id || io s.user_id)).map (fun s => s.user_id) ∧
    (sendToPending im io so l).2 = ((l.filter fun s =>
      !(im s.user_id || io s.user_id)).map (fun s => s.user_id)).filter so := by
  induction l with
  | nil => simp [sendToPending]
  | cons s l ih =>
    rw [sendToPending_cons]
    by_cases h1 : (im s.user_id || io s.user_id) = true
    · rcases (by simpa using h1 : im s.user_id = true ∨ io s.user_id = true) with him | hio
      · simpa [List.filter_cons, him] using ih
      · simpa [List.filter_cons, hio] using ih
    · have hff : im s.user_id = false ∧ io s.user_id = false := by
        simpa [not_or] using h1
      by_cases h2 : so s.user_id = true
      · simp [h1, hff.1, hff.2, h2, List.filter_cons, ih.1, ih.2]
      · simp [h1, hff.1, hff.2, h2, List.filter_cons, ih.1, ih.2]

lemma length_filter_partition (so : Nat → Bool) (l : List Nat) :
    (l.filter so).length = l.length - (l.filter fun u => !so u).length := by
  induction l with
  | nil => simp
  | cons a l ih =>
    by_cases h : so a = true
    · have hle : (l.filter fun u => !so u).length ≤ l.length := List.length_filter_le _ _
      simp [List.filter_cons, h, ih, Nat.succ_sub hle]
    · simp [List.filter_cons, h, ih]

lemma countEntries_append (l1 l2 : List LedgerEntry) (e p : Nat) :
    countEntries (l1 ++ l2) e p = countEntries l1 e p + countEntries l2 e p := by
  simp [countEntries, List.filter_append]

lemma countEntries_mark_self (ledger : List LedgerEntry) (e p now : Nat) :
    countEntries (mark_reminder_sent ledger e p now) e p = 1 := by
  unfold mark_reminder_sent
  rw [countEntries_append]
  have h0 : countEntries (ledger.filter fun x =>
      ¬(x.exam_id = e ∧ x.reminder_percent = p)) e p = 0 := by
    unfold countEntries
    rw [List.length_eq_zero, List.filter_filter]
    apply List.filter_eq_nil_iff.mpr
    intro x _
    simp only [Bool.and_eq_true, decide_eq_true_eq, not_and]
    tauto
  rw [h0]
  simp [countEntries]

lemma filter_key_mark_other (ledger : List LedgerEntry) (e p now e' p' : Nat)
    (h : ¬(e' = e ∧ p' = p)) :
    (mark_reminder_sent ledger e p now).filter
        (fun x => x.exam_id = e' ∧ x.reminder_percent = p') =
      ledger.filter (fun x => x.exam_id = e' ∧ x.reminder_percent = p') := by
  unfold mark_reminder_sent
  rw [List.filter_append]
  have h2 : (([⟨e, p, now⟩] : List LedgerEntry).filter
      (fun x => x.exam_id = e' ∧ x.reminder_percent = p')) = [] := by
    apply List.filter_eq_nil_iff.mpr
    intro x hx
    rw [List.mem_singleton] at hx
    subst hx
    simp only [decide_eq_true_eq]
    intro hc
    exact h ⟨hc.1.symm, hc.2.symm⟩
  rw [h2, List.append_nil, List.filter_filter]
  apply List.filter_congr
  intro x _
  by_cases hk : (x.exam_id = e' ∧ x.reminder_percent = p')
  · have hnk : ¬(x.exam_id = e ∧ x.reminder_percent = p) := by
      intro hc
      exact h ⟨hk.1.symm.trans hc.1, hk.2.symm.trans hc.2⟩
    simp [hk, hnk]
    tauto
  · simp [hk]

lemma countEntries_mark_other (ledger : List LedgerEntry) (e p now e' p' : Nat)
    (h : ¬(e' = e ∧ p' = p)) :
    countEntries (mark_reminder_sent ledger e p now) e' p' = countEntries ledger e' p' := by
  unfold countEntries
  rw [filter_key_mark_other ledger e p now e' p' h]

lemma queryLedger_mark_self (ledger : List LedgerEntry) (e p now : Nat) :
    queryLedger (mark_reminder_sent ledger e p now) e p = true := by
  unfold queryLedger mark_reminder_sent
  rw [List.any_append]
  simp

lemma get_reminder_some_inv (readOk : Nat → Nat → Bool) (ledger : List LedgerEntry)
    (exam : Exam) (now : Int) (t : Threshold)
    (h : get_reminder_to_send readOk ledger exam now = some t) :
    t ∈ REMINDER_THRESHOLDS ∧
      is_reminder_sent readOk ledger exam.exam_id t.percent = false := by
  unfold get_reminder_to_send at h
  rcases hcp : exam.creation_parse with _ | c
  · rw [hcp] at h
    simp at h
  · rw [hcp] at h
    simp only [] at h
    by_cases hd : exam.duration_days * 86400 ≤ 0
    · rw [if_pos hd] at h
      simp at h
    · rw [if_neg hd] at h
      refine ⟨List.mem_of_find?_eq_some h, ?_⟩
      have hp := List.find?_some h
      simp only [Bool.and_eq_true, Bool.not_eq_true'] at hp
      exact hp.2

lemma process_eq_of_none (env : ReminderEnv) (ledger : List LedgerEntry)
    (exam : Exam) (now : Int)
    (h : get_reminder_to_send env.readOk ledger exam now = none) :
    process_exam_reminders env ledger exam now = ⟨ledger, [], none⟩ := by
  unfold process_exam_reminders
  by_cases h1 : env.students.isEmpty = true
  · simp [h1]
  · by_cases h2 : (pending_students env).isEmpty = true
    · simp [h1, h2]
    · simp [h1, h2, h]

lemma process_dispatched_some_inv (env : ReminderEnv) (ledger : List LedgerEntry)
    (exam : Exam) (now : Int) (sc ts : Nat) (t : Threshold)
    (h : (process_exam_reminders env ledger exam now).dispatched = some (sc, ts, t)) :
    sc = env.submitted_ids.length ∧ ts = env.students.length ∧
    env.students.isEmpty = false ∧ (pending_students env).isEmpty = false ∧
    get_reminder_to_send env.readOk ledger exam now = some t ∧
    process_exam_reminders env ledger exam now =
      ⟨(send_intelligent_reminders env ledger exam (pending_students env)
          env.submitted_ids.length env.students.length t).ledger,
       (send_intelligent_reminders env ledger exam (pending_students env)
          env.submitted_ids.length env.students.length t).sent,
       some (env.submitted_ids.length, env.students.length, t)⟩ := by
  by_cases h1 : env.students.isEmpty = true
  · rw [show process_exam_reminders env ledger exam now = ⟨ledger, [], none⟩ by
      unfold process_exam_reminders; simp [h1]] at h
    simp at h
  · by_cases h2 : (pending_students env).isEmpty = true
    · rw [show process_exam_reminders env ledger exam now = ⟨ledger, [], none⟩ by
        unfold process_exam_reminders; simp [h1, h2]] at h
      simp at h
    · rcases hg : get_reminder_to_send env.readOk ledger exam now with _ | r
      · rw [process_eq_of_none env ledger exam now hg] at h
        simp at h
      · have hproc : process_exam_reminders env ledger exam now =
            ⟨(send_intelligent_reminders env ledger exam (pending_students env)
                env.submitted_ids.length env.students.length r).ledger,
             (send_intelligent_reminders env ledger exam (pending_students env)
                env.submitted_ids.length env.students.length r).sent,
             some (env.submitted_ids.length, env.students.length, r)⟩ := by
          unfold process_exam_reminders
          simp [h1, h2, hg]
        rw [hproc] at h
        simp only [Option.some.injEq, Prod.mk.injEq] at h
        obtain ⟨hsc, hts, ht⟩ := h
        subst ht
        exact ⟨hsc.symm, hts.symm, Bool.eq_false_iff.mpr h1, Bool.eq_false_iff.mpr h2,
          by simp [hg], hproc⟩

lemma process_dispatched_none_inv (env : ReminderEnv) (ledger : List LedgerEntry)
    (exam : Exam) (now : Int)
    (h : (process_exam_reminders env ledger exam now).dispatched = none) :
    process_exam_reminders env ledger exam now = ⟨ledger, [], none⟩ := by
  by_cases h1 : env.students.isEmpty = true
  · unfold process_exam_reminders
    simp [h1]
  · by_cases h2 : (pending_students env).isEmpty = true
    · unfold process_exam_reminders
      simp [h1, h2]
    · rcases hg : get_reminder_to_send env.readOk ledger exam now with _ | r
      · exact process_eq_of_none env ledger exam now hg
      · exfalso
        have hproc : (process_exam_reminders env ledger exam now).dispatched =
            some (env.submitted_ids.length, env.students.length, r) := by
          unfold process_exam_reminders
          simp [h1, h2, hg]
        rw [hproc] at h
        simp at h

/-! ### Claim theorems -/

/-- C4: for every exam whose duration is zero or non-positive, the threshold
policy returns none unconditionally, so such an exam never produces a fired
threshold, never causes any reminder message to be sent, and never gains a
Reminder Ledger Entry: the whole pipeline pass leaves the ledger unchanged,
sends nothing and never invokes the dispatcher. -/
theorem zero_duration_never_reminds (exam : Exam)
    (hdur : exam.duration_days ≤ 0) :
    (∀ (readOk : Nat → Nat → Bool) (ledger : List LedgerEntry) (now : Int),
      get_reminder_to_send readOk ledger exam now = none) ∧
    (∀ (env : ReminderEnv) (ledger : List LedgerEntry) (now : Int),
      process_exam_reminders env ledger exam now = ⟨ledger, [], none⟩) := by
  have hget : ∀ (readOk : Nat → Nat → Bool) (ledger : List LedgerEntry) (now : Int),
      get_reminder_to_send readOk ledger exam now = none := by
    intro readOk ledger now
    unfold get_reminder_to_send
    rcases hcp : exam.creation_parse with _ | c
    · simp [hcp]
    · simp only [hcp]
      rw [if_pos (mul_nonpos_iff.mpr (Or.inr ⟨hdur, by norm_num⟩))]
  exact ⟨hget, fun env ledger now => process_eq_of_none env ledger exam now (hget _ _ _)⟩

theorem zero_duration_never_reminds_witness :
    get_reminder_to_send (fun _ _ => true) [] sampleExamZero 500 = none ∧
    process_exam_reminders sampleEnv [] sampleExamZero 500 = ⟨[], [], none⟩ :=
  ⟨(zero_duration_never_reminds sampleExamZero (by decide)).1 _ _ _,
   (zero_duration_never_reminds sampleExamZero (by decide)).2 _ _ _⟩

/-- C6: for every exam whose creation timestamp is malformed (the parse of
lines 174-183 fails), the threshold policy returns none instead of raising,
so the pipeline pass sends no messages, writes no ledger entry and leaves
the ledger unchanged, keeping the exam eligible for a later retry. -/
theorem malformed_timestamp_skips_exam (exam : Exam)
    (hparse : exam.creation_parse = none) :
    (∀ (readOk : Nat → Nat → Bool) (ledger : List LedgerEntry) (now : Int),
      get_reminder_to_send readOk ledger exam now = none) ∧
    (∀ (env : ReminderEnv) (ledger : List LedgerEntry) (now : Int),
      process_exam_reminders env ledger exam now = ⟨ledger, [], none⟩) := by
  have hget : ∀ (readOk : Nat → Nat → Bool) (ledger : List LedgerEntry) (now : Int),
      get_reminder_to_send readOk ledger exam now = none := by
    intro readOk ledger now
    unfold get_reminder_to_send
    simp [hparse]
  exact ⟨hget, fun env ledger now => process_eq_of_none env ledger exam now (hget _ _ _)⟩

theorem malformed_timestamp_skips_exam_witness :
    get_reminder_to_send (fun _ _ => true) [] sampleExamBad 500 = none ∧
    process_exam_reminders sampleEnv [] sampleExamBad 500 = ⟨[], [], none⟩ :=
  ⟨(malformed_timestamp_skips_exam sampleExamBad rfl).1 _ _ _,
   (malformed_timestamp_skips_exam sampleExamBad rfl).2 _ _ _⟩

/-- C8: for every exam whose approved roster is empty or whose pending set is
empty (everyone submitted), the pipeline pass stops before threshold
evaluation: no message is sent, no ledger entry is written, and the ledger is
returned unchanged. -/
theorem empty_roster_or_all_submitted_no_action (env : ReminderEnv)
    (ledger : List LedgerEntry) (exam : Exam) (now : Int)
    (h : env.students = [] ∨ pending_students env = []) :
    process_exam_reminders env ledger exam now = ⟨ledger, [], none⟩ := by
  unfold process_exam_reminders
  rcases h with h | h
  · simp [h]
  · simp [h]

theorem empty_roster_or_all_submitted_no_action_witness :
    process_exam_reminders envAllSubmitted [] sampleExam 518400 = ⟨[], [], none⟩ :=
  empty_roster_or_all_submitted_no_action envAllSubmitted [] sampleExam 518400
    (Or.inr (by decide))

/-- C10: the dispatcher's submission-rate computation (line 279) divides by
`total_students` with no zero guard, but at every invocation from
`_process_exam_reminders` the argument equals the length of the approved
roster, already checked non-empty, so `total_students ≥ 1` holds as a
precondition whenever the dispatcher runs. -/
theorem dispatcher_total_students_positive (env : ReminderEnv)
    (ledger : List LedgerEntry) (exam : Exam) (now : Int)
    (sc ts : Nat) (t : Threshold)
    (h : (process_exam_reminders env ledger exam now).dispatched = some (sc, ts, t)) :
    ts = env.students.length ∧ 1 ≤ ts := by
  obtain ⟨_, hts, hne, -, -, -⟩ :=
    process_dispatched_some_inv env ledger exam now sc ts t h
  subst hts
  refine ⟨rfl, ?_⟩
  cases hs : env.students with
  | nil => rw [hs] at hne; simp at hne
  | cons a l => simp

theorem dispatcher_total_students_positive_witness :
    (2 : Nat) = sampleEnv.students.length ∧ 1 ≤ (2 : Nat) :=
  dispatcher_total_students_positive sampleEnv [] sampleExam 518400 0 2
    ⟨50, "الأول (50%)"⟩ (by
      simp [process_exam_reminders, sampleEnv, sampleExam, pending_students,
        get_reminder_to_send, REMINDER_THRESHOLDS, List.find?, is_reminder_sent,
        queryLedger, percent_elapsed, send_intelligent_reminders, sendToPending,
        mark_reminder_sent]
      norm_num)

/-- C1: for every exam with a parseable creation timestamp and positive
duration, and with all ledger reads succeeding, `_get_reminder_to_send`
returns exactly the smallest threshold of `REMINDER_THRESHOLDS` that has no
ledger entry for this exam and whose percentage is at most the exam's
elapsed-time percentage, and returns none exactly when no threshold
qualifies; hence at most one threshold is selected per pass and a higher
threshold is never selected while a lower one is still unsent. -/
theorem threshold_policy_selects_minimal_unsent
    (readOk : Nat → Nat → Bool) (ledger : List LedgerEntry) (exam : Exam)
    (now creation : Int)
    (hparse : exam.creation_parse = some creation)
    (hdur : 0 < exam.duration_days)
    (hread : ∀ q, readOk exam.exam_id q = true) :
    (∀ t : Threshold,
      get_reminder_to_send readOk ledger exam now = some t ↔
        t ∈ REMINDER_THRESHOLDS ∧
        queryLedger ledger exam.exam_id t.percent = false ∧
        (t.percent : ℚ) ≤ percent_elapsed creation now exam.duration_days ∧
        ∀ t' ∈ REMINDER_THRESHOLDS,
          queryLedger ledger exam.exam_id t'.percent = false →
          (t'.percent : ℚ) ≤ percent_elapsed creation now exam.duration_days →
          t.percent ≤ t'.percent) ∧
    (get_reminder_to_send readOk ledger exam now = none ↔
      ∀ t ∈ REMINDER_THRESHOLDS,
        queryLedger ledger exam.exam_id t.percent = false →
        ¬((t.percent : ℚ) ≤ percent_elapsed creation now exam.duration_days)) := by
  have hfind : get_reminder_to_send readOk ledger exam now =
      REMINDER_THRESHOLDS.find? (fun t =>
        decide ((t.percent : ℚ) ≤ percent_elapsed creation now exam.duration_days) &&
          ! is_reminder_sent readOk ledger exam.exam_id t.percent) :=
    get_reminder_eq_find readOk ledger exam now creation hparse hdur
  have hpt : ∀ t : Threshold,
      (decide ((t.percent : ℚ) ≤ percent_elapsed creation now exam.duration_days) &&
        ! is_reminder_sent readOk ledger exam.exam_id t.percent) = true ↔
      ((t.percent : ℚ) ≤ percent_elapsed creation now exam.duration_days ∧
        queryLedger ledger exam.exam_id t.percent = false) := by
    intro t
    simp [is_reminder_sent, hread t.percent]
  have hpw : REMINDER_THRESHOLDS.Pairwise (fun a b => a.percent ≤ b.percent) := by
    decide
  have hinj : ∀ a ∈ REMINDER_THRESHOLDS, ∀ b ∈ REMINDER_THRESHOLDS,
      a.percent = b.percent → a = b := by decide
  constructor
  · intro t
    constructor
    · intro h
      rw [hfind] at h
      have hp := List.find?_some h
      have hmem := List.mem_of_find?_eq_some h
      have hcond := (hpt t).mp hp
      refine ⟨hmem, hcond.2, hcond.1, ?_⟩
      intro t' hmem' hq' hle'
      exact find?_min_of_pairwise _ REMINDER_THRESHOLDS hpw t h t' hmem'
        ((hpt t').mpr ⟨hle', hq'⟩)
    · rintro ⟨hmem, hq, hle, hmin⟩
      rw [hfind]
      rcases hf : REMINDER_THRESHOLDS.find? (fun t =>
          decide ((t.percent : ℚ) ≤ percent_elapsed creation now exam.duration_days) &&
            ! is_reminder_sent readOk ledger exam.exam_id t.percent) with _ | t''
      · exfalso
        rw [List.find?_eq_none] at hf
        exact hf t hmem ((hpt t).mpr ⟨hle, hq⟩)
      · have hp'' := List.find?_some hf
        have hmem'' := List.mem_of_find?_eq_some hf
        have hcond'' := (hpt t'').mp hp''
        have h1 : t''.percent ≤ t.percent :=
          find?_min_of_pairwise _ REMINDER_THRESHOLDS hpw t'' hf t hmem
            ((hpt t).mpr ⟨hle, hq⟩)
        have h2 : t.percent ≤ t''.percent := hmin t'' hmem'' hcond''.2 hcond''.1
        rw [hf, hinj t'' hmem'' t hmem (le_antisymm h1 h2)]
  · rw [hfind, List.find?_eq_none]
    constructor
    · intro hf t hmem hq hle
      exact hf t hmem ((hpt t).mpr ⟨hle, hq⟩)
    · intro hall t hmem hp
      have hc := (hpt t).mp hp
      exact hall t hmem hc.2 hc.1

theorem threshold_policy_selects_minimal_unsent_witness :
    get_reminder_to_send (fun _ _ => true) [] sampleExam 518400 =
      some ⟨50, "الأول (50%)"⟩ :=
  ((threshold_policy_selects_minimal_unsent (fun _ _ => true) [] sampleExam
      518400 0 rfl (by norm_num [sampleExam]) (fun q => rfl)).1
    ⟨50, "الأول (50%)"⟩).mpr
    ⟨by decide, by decide, by norm_num [percent_elapsed, sampleExam], by
      intro t' hmem hq hle
      simp only [REMINDER_THRESHOLDS, List.mem_cons, List.mem_singleton,
        List.not_mem_nil, or_false] at hmem
      rcases hmem with rfl | rfl | rfl <;> norm_num⟩

/-- C5: in every pipeline pass, every recipient of a successfully sent
reminder message is a pending student (approved, no submission row) for whom
both the manager check and the owner check returned false at dispatch time;
hence a user whose checks report manager or owner status never receives a
threshold reminder, regardless of pending status. -/
theorem staff_never_receives (env : ReminderEnv) (ledger : List LedgerEntry)
    (exam : Exam) (now : Int) (u : Nat)
    (hu : u ∈ (process_exam_reminders env ledger exam now).sent) :
    env.is_manager u = false ∧ env.is_owner u = false ∧
      ∃ s, s ∈ env.students ∧ env.submitted_ids.contains s.user_id = false ∧
        s.user_id = u := by
  rcases hd : (process_exam_reminders env ledger exam now).dispatched with _ | ⟨sc, ts, t⟩
  · rw [process_dispatched_none_inv env ledger exam now hd] at hu
    simp at hu
  · obtain ⟨-, -, -, -, -, hproc⟩ :=
      process_dispatched_some_inv env ledger exam now sc ts t hd
    rw [hproc] at hu
    have hu' : u ∈ (sendToPending env.is_manager env.is_owner env.send_ok
        (pending_students env)).2 := hu
    obtain ⟨h1, h2, -, s, hs, hsu⟩ :=
      mem_sent_sendToPending env.is_manager env.is_owner env.send_ok
        (pending_students env) u hu'
    rw [pending_students, List.mem_filter] at hs
    refine ⟨h1, h2, s, hs.1, ?_, hsu⟩
    simpa using hs.2

theorem staff_never_receives_witness :
    envStaff.is_manager 8 = false ∧ envStaff.is_owner 8 = false ∧
      ∃ s, s ∈ envStaff.students ∧
        envStaff.submitted_ids.contains s.user_id = false ∧ s.user_id = 8 :=
  staff_never_receives envStaff [] sampleExam 518400 8 (by
    simp [process_exam_reminders, envStaff, sampleExam, pending_students,
      get_reminder_to_send, REMINDER_THRESHOLDS, List.find?, is_reminder_sent,
      queryLedger, percent_elapsed, send_intelligent_reminders, sendToPending,
      mark_reminder_sent]
    norm_num)

/-- C3 counterexample: `_mark_reminder_sent` uses `INSERT OR REPLACE`, so a
second call for the same (exam, threshold) pair does not no-op: marking
(1, 50) at time 100 and again at time 200 leaves the single row with
sent_at = 200, not the original sent_at = 100. -/
theorem mark_reminder_replaces_counterexample :
    mark_reminder_sent (mark_reminder_sent [] 1 50 100) 1 50 200 =
      [⟨1, 50, 200⟩] ∧
    ¬ mark_reminder_sent (mark_reminder_sent [] 1 50 100) 1 50 200 =
      [⟨1, 50, 100⟩] := by
  decide

/-- C3 (amended): after any `_mark_reminder_sent` call, exactly one row for
its (exam id, threshold percent) pair exists, and rows of every other pair
are untouched (so uniqueness of the composite key is an invariant); however
a duplicate call does not reject or no-op — it replaces the row, and marking
twice equals marking once with the later timestamp. -/
theorem ledger_at_most_one_entry (ledger : List LedgerEntry) (e p now now2 : Nat) :
    countEntries (mark_reminder_sent ledger e p now) e p = 1 ∧
    (∀ e' p', ¬(e' = e ∧ p' = p) →
      countEntries (mark_reminder_sent ledger e p now) e' p' =
        countEntries ledger e' p') ∧
    mark_reminder_sent (mark_reminder_sent ledger e p now) e p now2 =
      mark_reminder_sent ledger e p now2 := by
  refine ⟨countEntries_mark_self ledger e p now,
    fun e' p' h => countEntries_mark_other ledger e p now e' p' h, ?_⟩
  unfold mark_reminder_sent
  rw [List.filter_append]
  have h1 : (([⟨e, p, now⟩] : List LedgerEntry).filter
      (fun x => ¬(x.exam_id = e ∧ x.reminder_percent = p))) = [] := by
    simp
  have h2 : ((ledger.filter fun x => ¬(x.exam_id = e ∧ x.reminder_percent = p)).filter
      (fun x => ¬(x.exam_id = e ∧ x.reminder_percent = p))) =
      ledger.filter fun x => ¬(x.exam_id = e ∧ x.reminder_percent = p) := by
    rw [List.filter_filter]
    apply List.filter_congr
    intro x _
    simp
  rw [h1, h2, List.append_nil]

theorem ledger_at_most_one_entry_witness :
    countEntries (mark_reminder_sent [] 1 50 100) 1 50 = 1 :=
  (ledger_at_most_one_entry [] 1 50 100 200).1

/-- C7 counterexample: with two pending students of which the first is a
manager (excluded) and every transport send succeeding, the dispatcher
attempts M = 1 recipient with N = 0 failures, but the audit log reports the
ratio 1/2 — `success_count / len(pending_students)` — and not
(M − N)/M = 1: the reported denominator is the pending count, which includes
excluded staff. -/
theorem reported_ratio_counterexample :
    (send_intelligent_reminders envStaff [] sampleExam [⟨7, "m"⟩, ⟨8, "s"⟩]
        0 2 ⟨50, "الأول (50%)"⟩).attempted.length = 1 ∧
    (send_intelligent_reminders envStaff [] sampleExam [⟨7, "m"⟩, ⟨8, "s"⟩]
        0 2 ⟨50, "الأول (50%)"⟩).success_count = 1 ∧
    (send_intelligent_reminders envStaff [] sampleExam [⟨7, "m"⟩, ⟨8, "s"⟩]
        0 2 ⟨50, "الأول (50%)"⟩).reported_total = 2 ∧
    ¬ (((send_intelligent_reminders envStaff [] sampleExam [⟨7, "m"⟩, ⟨8, "s"⟩]
          0 2 ⟨50, "الأول (50%)"⟩).success_count : ℚ) /
        ((send_intelligent_reminders envStaff [] sampleExam [⟨7, "m"⟩, ⟨8, "s"⟩]
          0 2 ⟨50, "الأول (50%)"⟩).reported_total : ℚ) =
       (((1 : ℚ) - 0) / (1 : ℚ))) := by
  refine ⟨by decide, by decide, by decide, ?_⟩
  have hs : (send_intelligent_reminders envStaff [] sampleExam [⟨7, "m"⟩, ⟨8, "s"⟩]
      0 2 ⟨50, "الأول (50%)"⟩).success_count = 1 := by decide
  have ht : (send_intelligent_reminders envStaff [] sampleExam [⟨7, "m"⟩, ⟨8, "s"⟩]
      0 2 ⟨50, "الأول (50%)"⟩).reported_total = 2 := by decide
  rw [hs, ht]
  norm_num

/-- C7 (amended): in every dispatch pass, per-recipient outcomes are
independent — the successfully sent list is exactly the attempted recipient
list filtered by transport success, so one failure never aborts the batch —
and, provided the ledger write does not itself fail, exactly one ledger row
for (exam id, threshold percent) exists afterwards even if some or all sends
failed; the reported ratio is `success_count = M − N` over the full pending
count, which equals M (and hence the ratio (M − N)/M) exactly when no pending
student is excluded staff. -/
theorem partial_failure_isolation (env : ReminderEnv) (ledger : List LedgerEntry)
    (exam : Exam) (pending : List Student) (sc ts : Nat) (rinfo : Threshold)
    (hw : env.write_ok = true) :
    countEntries (send_intelligent_reminders env ledger exam pending sc ts
      rinfo).ledger exam.exam_id rinfo.percent = 1 ∧
    (send_intelligent_reminders env ledger exam pending sc ts rinfo).sent =
      (send_intelligent_reminders env ledger exam pending sc ts
        rinfo).attempted.filter env.send_ok ∧
    (send_intelligent_reminders env ledger exam pending sc ts rinfo).success_count =
      (send_intelligent_reminders env ledger exam pending sc ts
        rinfo).attempted.length -
      ((send_intelligent_reminders env ledger exam pending sc ts
        rinfo).attempted.filter fun u => ! env.send_ok u).length ∧
    (send_intelligent_reminders env ledger exam pending sc ts rinfo).reported_total =
      pending.length ∧
    ((∀ s ∈ pending, env.is_manager s.user_id = false ∧
        env.is_owner s.user_id = false) →
      (send_intelligent_reminders env ledger exam pending sc ts
        rinfo).reported_total =
        (send_intelligent_reminders env ledger exam pending sc ts
          rinfo).attempted.length) := by
  obtain ⟨ha, hs⟩ := sendToPending_eq env.is_manager env.is_owner env.send_ok pending
  refine ⟨?_, ?_, ?_, rfl, ?_⟩
  · show countEntries (if env.write_ok then
        mark_reminder_sent ledger exam.exam_id rinfo.percent env.now_ts
      else ledger) exam.exam_id rinfo.percent = 1
    rw [hw, if_pos rfl]
    exact countEntries_mark_self ledger exam.exam_id rinfo.percent env.now_ts
  · show (sendToPending env.is_manager env.is_owner env.send_ok pending).2 =
      (sendToPending env.is_manager env.is_owner env.send_ok pending).1.filter
        env.send_ok
    rw [ha, hs]
  · show (sendToPending env.is_manager env.is_owner env.send_ok pending).2.length =
      (sendToPending env.is_manager env.is_owner env.send_ok pending).1.length -
      ((sendToPending env.is_manager env.is_owner env.send_ok pending).1.filter
        fun u => ! env.send_ok u).length
    rw [ha, hs]
    exact length_filter_partition env.send_ok _
  · intro hstaff
    show pending.length =
      (sendToPending env.is_manager env.is_owner env.send_ok pending).1.length
    rw [ha, List.length_map]
    congr 1
    symm
    apply List.filter_eq_self.mpr
    intro s hsmem
    simp [(hstaff s hsmem).1, (hstaff s hsmem).2]

theorem partial_failure_isolation_witness :
    countEntries (send_intelligent_reminders sampleEnv [] sampleExam
      [⟨7, "a"⟩, ⟨8, "b"⟩] 0 2 ⟨50, "الأول (50%)"⟩).ledger 3 50 = 1 :=
  (partial_failure_isolation sampleEnv [] sampleExam [⟨7, "a"⟩, ⟨8, "b"⟩]
    0 2 ⟨50, "الأول (50%)"⟩ rfl).1

/-- C2: if a pipeline pass over an exam fires threshold t and the ledger
write succeeds, exactly one ledger row for (exam, t) exists afterwards; a
second pass over the same exam whose ledger read for that pair succeeds can
never select t again — in particular with no new submissions, roster changes
or ledger failures the second run sends zero messages for that threshold —
and the row count for the pair remains exactly one; when the second pass
selects no threshold it sends nothing at all. -/
theorem pipeline_idempotent
    (env env2 : ReminderEnv) (ledger : List LedgerEntry) (exam : Exam)
    (now now2 : Int) (sc ts : Nat) (t : Threshold)
    (hw : env.write_ok = true)
    (hfire : (process_exam_reminders env ledger exam now).dispatched =
      some (sc, ts, t))
    (hread2 : env2.readOk exam.exam_id t.percent = true) :
    countEntries (process_exam_reminders env ledger exam now).ledger
      exam.exam_id t.percent = 1 ∧
    (∀ sc2 ts2 t2,
      (process_exam_reminders env2
        (process_exam_reminders env ledger exam now).ledger exam now2).dispatched =
          some (sc2, ts2, t2) → t2.percent ≠ t.percent) ∧
    countEntries (process_exam_reminders env2
      (process_exam_reminders env ledger exam now).ledger exam now2).ledger
      exam.exam_id t.percent = 1 ∧
    ((process_exam_reminders env2
        (process_exam_reminders env ledger exam now).ledger exam now2).dispatched =
          none →
      (process_exam_reminders env2
        (process_exam_reminders env ledger exam now).ledger exam now2).sent = []) := by
  obtain ⟨hsc, hts, h1, h2, hg, hproc⟩ :=
    process_dispatched_some_inv env ledger exam now sc ts t hfire
  have hledger1 : (process_exam_reminders env ledger exam now).ledger =
      mark_reminder_sent ledger exam.exam_id t.percent env.now_ts := by
    rw [hproc]
    show (if env.write_ok then
        mark_reminder_sent ledger exam.exam_id t.percent env.now_ts
      else ledger) = _
    rw [hw, if_pos rfl]
  have hcount1 : countEntries (process_exam_reminders env ledger exam now).ledger
      exam.exam_id t.percent = 1 := by
    rw [hledger1]
    exact countEntries_mark_self ledger exam.exam_id t.percent env.now_ts
  have hnotagain : ∀ sc2 ts2 t2,
      (process_exam_reminders env2
        (process_exam_reminders env ledger exam now).ledger exam now2).dispatched =
          some (sc2, ts2, t2) → t2.percent ≠ t.percent := by
    intro sc2 ts2 t2 hd2 heq
    obtain ⟨-, -, -, -, hg2, -⟩ :=
      process_dispatched_some_inv env2 _ exam now2 sc2 ts2 t2 hd2
    have hunsent := (get_reminder_some_inv env2.readOk _ exam now2 t2 hg2).2
    rw [heq] at hunsent
    unfold is_reminder_sent at hunsent
    rw [hread2] at hunsent
    rw [if_pos rfl] at hunsent
    rw [hledger1] at hunsent
    rw [queryLedger_mark_self] at hunsent
    exact Bool.true_eq_false.mp hunsent
  refine ⟨hcount1, hnotagain, ?_, ?_⟩
  · rcases hd2 : (process_exam_reminders env2
        (process_exam_reminders env ledger exam now).ledger exam now2).dispatched
        with _ | ⟨sc2, ts2, t2⟩
    · rw [process_dispatched_none_inv env2 _ exam now2 hd2]
      exact hcount1
    · obtain ⟨-, -, -, -, -, hproc2⟩ :=
        process_dispatched_some_inv env2 _ exam now2 sc2 ts2 t2 hd2
      rw [hproc2]
      show countEntries (if env2.write_ok then
          mark_reminder_sent (process_exam_reminders env ledger exam now).ledger
            exam.exam_id t2.percent env2.now_ts
        else (process_exam_reminders env ledger exam now).ledger)
        exam.exam_id t.percent = 1
      by_cases hw2 : env2.write_ok = true
      · rw [hw2, if_pos rfl]
        rw [countEntries_mark_other _ _ _ _ _ _
          (fun hc => hnotagain sc2 ts2 t2 hd2 hc.2.symm)]
        exact hcount1
      · rw [Bool.eq_false_iff.mpr hw2]
        rw [if_neg (by simp)]
        exact hcount1
  · intro hnone
    rw [process_dispatched_none_inv env2 _ exam now2 hnone]

theorem pipeline_idempotent_witness :
    countEntries (process_exam_reminders sampleEnv [] sampleExam 518400).ledger
      3 50 = 1 ∧
    countEntries (process_exam_reminders sampleEnv
      (process_exam_reminders sampleEnv [] sampleExam 518400).ledger
      sampleExam 518400).ledger 3 50 = 1 :=
  ⟨(pipeline_idempotent sampleEnv sampleEnv [] sampleExam 518400 518400 0 2
      ⟨50, "الأول (50%)"⟩ rfl (by
        simp [process_exam_reminders, sampleEnv, sampleExam, pending_students,
          get_reminder_to_send, REMINDER_THRESHOLDS, List.find?, is_reminder_sent,
          queryLedger, percent_elapsed, send_intelligent_reminders, sendToPending,
          mark_reminder_sent]
        norm_num) rfl).1,
   (pipeline_idempotent sampleEnv sampleEnv [] sampleExam 518400 518400 0 2
      ⟨50, "الأول (50%)"⟩ rfl (by
        simp [process_exam_reminders, sampleEnv, sampleExam, pending_students,
          get_reminder_to_send, REMINDER_THRESHOLDS, List.find?, is_reminder_sent,
          queryLedger, percent_elapsed, send_intelligent_reminders, sendToPending,
          mark_reminder_sent]
        norm_num) rfl).2.2.1⟩

/-- C9: `_is_reminder_sent` returns false whenever its database query raises,
for any ledger contents; consequently, under a read failure for (exam, 50),
an exam whose ledger already holds that entry has threshold 50 selected again
once 50% of its duration has elapsed, and the pipeline dispatches it again —
the at-most-once guarantee of C2 holds only when ledger reads succeed, and
read failures degrade delivery to at-least-once. -/
theorem read_failure_degrades_to_at_least_once (env : ReminderEnv)
    (ledger : List LedgerEntry) (exam : Exam) (now creation : Int)
    (hparse : exam.creation_parse = some creation)
    (hdur : 0 < exam.duration_days)
    (hfail : env.readOk exam.exam_id 50 = false)
    (hentry : queryLedger ledger exam.exam_id 50 = true)
    (hpe : (50 : ℚ) ≤ percent_elapsed creation now exam.duration_days) :
    (∀ (rok : Nat → Nat → Bool) (l2 : List LedgerEntry) (e p : Nat),
      rok e p = false → is_reminder_sent rok l2 e p = false) ∧
    get_reminder_to_send env.readOk ledger exam now =
      some ⟨50, "الأول (50%)"⟩ ∧
    (env.students.isEmpty = false → (pending_students env).isEmpty = false →
      (process_exam_reminders env ledger exam now).dispatched =
        some (env.submitted_ids.length, env.students.length,
          ⟨50, "الأول (50%)"⟩)) := by
  have hsoft : ∀ (rok : Nat → Nat → Bool) (l2 : List LedgerEntry) (e p : Nat),
      rok e p = false → is_reminder_sent rok l2 e p = false := by
    intro rok l2 e p hr
    simp [is_reminder_sent, hr]
  have hget : get_reminder_to_send env.readOk ledger exam now =
      some ⟨50, "الأول (50%)"⟩ := by
    rw [get_reminder_eq_find env.readOk ledger exam now creation hparse hdur]
    exact List.find?_cons_of_pos _ (by
      simp [hpe, hsoft env.readOk ledger exam.exam_id 50 hfail])
  refine ⟨hsoft, hget, ?_⟩
  intro h1 h2
  unfold process_exam_reminders
  simp [h1, h2, hget]

theorem read_failure_degrades_to_at_least_once_witness :
    is_reminder_sent envReadFail.readOk [⟨3, 50, 111⟩] 3 50 = false ∧
    get_reminder_to_send envReadFail.readOk [⟨3, 50, 111⟩] sampleExam 518400 =
      some ⟨50, "الأول (50%)"⟩ ∧
    (process_exam_reminders envReadFail [⟨3, 50, 111⟩] sampleExam 518400).dispatched =
      some (0, 1, ⟨50, "الأول (50%)"⟩) := by
  have h := read_failure_degrades_to_at_least_once envReadFail [⟨3, 50, 111⟩]
    sampleExam 518400 0 rfl (by norm_num [sampleExam]) rfl rfl
    (by norm_num [percent_elapsed, sampleExam])
  exact ⟨h.1 envReadFail.readOk [⟨3, 50, 111⟩] 3 50 rfl, h.2.1, h.2.2 rfl rfl⟩

end SmartReminders
